import Mathlib

/-!
Verification of the repoup package-repository updater.

This file shallowly embeds the parts of the repoup source that the
claims talk about:

* `repoup/repository/__init__.py` — the common transaction contract
  (`RepositoryBase.__aexit__`, `get_repository`),
* `repoup/repository/rpm.py` — the RPM repository (`add`, `remove`,
  `_save`, `find_repository`, the `_NEVRA` regular expression),
* `repoup/entrypoint/aws_lambda.py` — the AWS Lambda `handler`,
* `repoup/storage/s3.py` — the pieces of the storage driver the
  claims mention (`join`, the url split in `get_storage`).

Pure Python string helpers (`os.path.basename`, `os.path.splitext`,
`str.lstrip`, `string.Template.substitute`, ...) are embedded
faithfully.  External collaborators (createrepo_c parsing and the
content-hash naming of the generated metadata files, the S3 client)
enter as explicit parameters of the embedding.

The helpers `_mark_as_modified` / `_mark_for_deletion`, the
`modified` / `removed` properties and the `AsyncContext` base class
are used by the sources but their definitions are not part of the
source tree; those are modelled from the spec and flagged as such in
their doc comments.
-/

set_option maxRecDepth 8000

/-- Decidable equality of `Except` results, to evaluate the embedded
fallible functions on concrete inputs. -/
instance {ε α : Type} [DecidableEq ε] [DecidableEq α] : DecidableEq (Except ε α) := fun x y =>
  match x, y with
  | .ok a, .ok b => if h : a = b then .isTrue (by rw [h]) else .isFalse (by simp [h])
  | .error a, .error b => if h : a = b then .isTrue (by rw [h]) else .isFalse (by simp [h])
  | .ok _, .error _ => .isFalse (by simp)
  | .error _, .ok _ => .isFalse (by simp)

/-- Errors of `repoup.exceptions` plus the Python built-in errors the
embedded code can raise.  The module `repoup/exceptions.py` itself is
not in the source tree; only the error names and the places raising
them are, which is all the claims need. -/
inductive RepoError where
  | valueError (msg : String)
  | keyError (key : String)
  | indexError
  | attributeError (msg : String)
  | invalidPackage (msg : String)
  | packageAlreadyExists (filename : String)
  | packageNotFound (key : String)
  | notImplemented (component : String)
deriving DecidableEq

/-- Index of the last occurrence of a character in a list, as used by
Python `str.rfind`. -/
def lastIdxOf (c : Char) : List Char → Option Nat
  | [] => none
  | x :: xs =>
    match lastIdxOf c xs with
    | some i => some (i + 1)
    | none => if x = c then some 0 else none

/-- Python `os.path.basename` (POSIX): everything after the last slash. -/
def pyBasename (s : String) : String :=
  match lastIdxOf '/' s.toList with
  | none => s
  | some i => String.mk (s.toList.drop (i + 1))

/-- Python `os.path.splitext` (POSIX): split at the last dot of the
final path component, provided some non-dot character of that
component comes before it (so leading dots never start an extension). -/
def pySplitext (s : String) : String × String :=
  let l := s.toList
  match lastIdxOf '.' l with
  | none => (s, String.mk [])
  | some d =>
    let start := match lastIdxOf '/' l with
      | none => 0
      | some i => i + 1
    if start ≤ d ∧ ((l.drop start).take (d - start)).any (fun c => c != '.') then
      (String.mk (l.take d), String.mk (l.drop d))
    else (s, String.mk [])

/-- Python `str.lstrip(chars)`: drop the leading characters satisfying
the predicate. -/
def pyLstrip (p : Char → Bool) (s : String) : String :=
  String.mk (s.toList.dropWhile p)

/-- Python `str.rstrip(chars)`. -/
def pyRstrip (p : Char → Bool) (s : String) : String :=
  String.mk ((s.toList.reverse.dropWhile p).reverse)

/-- Python `str.capitalize`: first character upper-cased, the rest
lower-cased. -/
def pyCapitalize (s : String) : String :=
  match s.toList with
  | [] => s
  | c :: r => String.mk (c.toUpper :: r.map Char.toLower)

/-- Membership of `string.ascii_letters`. -/
def isAsciiLetter (c : Char) : Bool :=
  (('a' ≤ c) && (c ≤ 'z')) || (('A' ≤ c) && (c ≤ 'Z'))

/-- Substring search over lists of characters (Python `in` on strings). -/
def listHasSub (n : List Char) : List Char → Bool
  | [] => n.isEmpty
  | c :: t => if n.isPrefixOf (c :: t) then true else listHasSub n t

/-- Python `needle in hay` for strings. -/
def pyContains (hay needle : String) : Bool :=
  listHasSub needle.toList hay.toList

/-- Python `str.startswith`. -/
def pyStartswith (s p : String) : Bool :=
  p.toList.isPrefixOf s.toList

/-- The part after the first occurrence of a character, as produced by
Python `s.split(c, 1)[1]`; `none` when the character is absent (where
the Python indexing raises `IndexError`). -/
def afterFirst (c : Char) : List Char → Option (List Char)
  | [] => none
  | x :: r => if x = c then some r else afterFirst c r

/-- Python `posixpath.join(a, b)` for the two-argument uses in the
storage driver. -/
def pyJoin (pfx filename : String) : String :=
  if filename.toList.headD ' ' = '/' then filename
  else if pfx = String.mk [] ∨ pfx.toList.getLastD ' ' = '/' then pfx ++ filename
  else pfx ++ String.mk ['/'] ++ filename

/-- First character of a `string.Template` identifier
(`[_a-zA-Z]`, ASCII because the stdlib pattern uses the `a` flag). -/
def isIdStart (c : Char) : Bool :=
  c = '_' || isAsciiLetter c

/-- Continuation character of a `string.Template` identifier. -/
def isIdCont (c : Char) : Bool :=
  isIdStart c || (('0' ≤ c) && (c ≤ '9'))

/-- Lookup in the keyword-argument dictionary passed to
`Template.substitute` (and to `find_repository`). -/
def varGet (k : String) : List (String × String) → Option String
  | [] => none
  | (a, v) :: r => if a = k then some v else varGet k r

/-- Python dict assignment `m[k] = v`: replace in place, else append. -/
def varSet (k v : String) : List (String × String) → List (String × String)
  | [] => [(k, v)]
  | (a, w) :: r => if a = k then (a, v) :: r else (a, w) :: varSet k v r

/-- Scanner of Python `string.Template.substitute`: `$$` escapes a
dollar, `$name` and `$\x7bname\x7d` substitute a variable, a missing
variable raises `KeyError`, and a dollar followed by anything else
raises `ValueError`.  The first argument is fuel, always called with
more fuel than characters so the base case is unreachable. -/
def templateSubGo (m : List (String × String)) : Nat → List Char → Except RepoError (List Char)
  | 0, _ => .error (.valueError "template fuel exhausted")
  | _ + 1, [] => .ok []
  | _ + 1, ['$'] => .error (.valueError "Invalid placeholder in string")
  | f + 1, '$' :: '$' :: r => (templateSubGo m f r).map (fun t => '$' :: t)
  | f + 1, '$' :: '\x7b' :: r =>
    let idn := r.takeWhile isIdCont
    match r.drop idn.length with
    | '\x7d' :: r2 =>
      if (match idn with | [] => false | c :: _ => isIdStart c) then
        match varGet (String.mk idn) m with
        | some v => (templateSubGo m f r2).map (fun t => v.toList ++ t)
        | none => .error (.keyError (String.mk idn))
      else .error (.valueError "Invalid placeholder in string")
    | _ => .error (.valueError "Invalid placeholder in string")
  | f + 1, '$' :: c :: r =>
    if isIdStart c then
      let idn := c :: r.takeWhile isIdCont
      match varGet (String.mk idn) m with
      | some v => (templateSubGo m f (r.dropWhile isIdCont)).map (fun t => v.toList ++ t)
      | none => .error (.keyError (String.mk idn))
    else .error (.valueError "Invalid placeholder in string")
  | f + 1, c :: r => (templateSubGo m f r).map (fun t => c :: t)

/-- Python `string.Template(tmpl).substitute(m)`. -/
def templateSubst (tmpl : String) (m : List (String × String)) : Except RepoError String :=
  (templateSubGo m (tmpl.toList.length + 1) tmpl.toList).map (fun l => String.mk l)

/-- Named groups of the `_NEVRA` regular expression of
`repoup/repository/rpm.py`. -/
structure NevraG where
  name : String
  epoch : Option String
  version : String
  release : String
  arch : String
deriving DecidableEq

/-- Characters matched by `.` in a Python regex without `DOTALL`:
everything but a newline. -/
def noNl (l : List Char) : Bool :=
  l.all (fun c => c != '\n')

/-- All splits of a list, longest first component first — the order a
greedy `.*` explores its candidates in. -/
def splitsDesc (l : List Char) : List (List Char × List Char) :=
  ((List.range (l.length + 1)).reverse).map (fun i => (l.take i, l.drop i))

/-- Lower-case a character list (the regex is compiled `IGNORECASE`). -/
def ciLower (l : List Char) : List Char :=
  l.map Char.toLower

/-- Tail of the `_NEVRA` pattern: `\.(?P<arch>.*)\.rpm$` with a greedy
`arch`.  Python `$` also matches just before a final newline. -/
def nevraArch (w : List Char) : Option (List Char) :=
  (splitsDesc w).findSome? (fun pr =>
    match pr.2 with
    | '.' :: r =>
      if noNl pr.1 && (ciLower r == ['r', 'p', 'm'] || ciLower r == ['r', 'p', 'm', '\n']) then
        some pr.1
      else none
    | _ => none)

/-- `(?P<release>.*)\.` followed by the arch tail, `release` greedy. -/
def nevraRelArch (u : List Char) : Option (List Char × List Char) :=
  (splitsDesc u).findSome? (fun pr =>
    match pr.2 with
    | '.' :: w => if noNl pr.1 then (nevraArch w).map (fun a => (pr.1, a)) else none
    | _ => none)

/-- `(?P<version>.*)-` followed by the release part, `version` greedy. -/
def nevraVerRelArch (r : List Char) : Option (List Char × List Char × List Char) :=
  (splitsDesc r).findSome? (fun pr =>
    match pr.2 with
    | '-' :: u => if noNl pr.1 then (nevraRelArch u).map (fun p => (pr.1, p.1, p.2)) else none
    | _ => none)

/-- `((?P<epoch>\d+):)?` followed by the version part: the optional
group is tried first, and only the maximal digit run can precede the
colon; on failure the group matches empty. -/
def nevraAfterName (r : List Char) : Option (Option (List Char) × List Char × List Char × List Char) :=
  let digits := r.takeWhile Char.isDigit
  let withEpoch :=
    if digits.isEmpty then none
    else
      match r.drop digits.length with
      | ':' :: r2 => (nevraVerRelArch r2).map (fun p => (some digits, p))
      | _ => none
  match withEpoch with
  | some x => some x
  | none => (nevraVerRelArch r).map (fun p => ((none : Option (List Char)), p))

/-- `(?P<name>.*)-` followed by the rest of the pattern, `name` greedy. -/
def nevraFromBody (s : List Char) : Option NevraG :=
  (splitsDesc s).findSome? (fun pr =>
    match pr.2 with
    | '-' :: r =>
      if noNl pr.1 then
        (nevraAfterName r).map (fun q =>
          ⟨String.mk pr.1, q.1.map (fun e => String.mk e), String.mk q.2.1,
            String.mk q.2.2.1, String.mk q.2.2.2⟩)
      else none
    | _ => none)

/-- `_NEVRA.match`: the optional leading `(.*/)?` group (tried with its
greedy body first) followed by the body of the pattern. -/
def nevraMatch (s : String) : Option NevraG :=
  let l := s.toList
  let withDir := (splitsDesc l).findSome? (fun pr =>
    match pr.2 with
    | '/' :: r => if noNl pr.1 then nevraFromBody r else none
    | _ => none)
  match withDir with
  | some g => some g
  | none => nevraFromBody l

/-- Dynamically typed value, to state what `get_repository` really
hands to the repository constructor as its `url`. -/
inductive PyVal where
  | str (s : String)
  | dict (entries : List (String × String))
deriving DecidableEq

/-- `Repository.find_repository` of `repoup/repository/rpm.py`:
no `BASEURL` is a `ValueError`; an unparsable basename is
`InvalidPackage`; `arch` and `basearch` are bound to the parsed arch;
when the base url template mentions `$releasever` the release field
must carry a dist tag after its first dot, whose leading ASCII letters
are stripped; the resulting dict carries the substituted url. -/
def find_repository (baseurl : Option String) (filename : String)
    (vars : List (String × String)) : Except RepoError PyVal :=
  match baseurl with
  | none => .error (.valueError "BASEURL must be defined")
  | some B =>
    match nevraMatch (pyBasename filename) with
    | none => .error (.invalidPackage filename)
    | some g =>
      let v1 := varSet "arch" g.arch vars
      let v2 := varSet "basearch" g.arch v1
      if pyContains B "$releasever" then
        match afterFirst '.' g.release.toList with
        | none => .error (.invalidPackage g.release)
        | some dist =>
          let v3 := varSet "releasever" (pyLstrip isAsciiLetter (String.mk dist)) v2
          (templateSubst B v3).map (fun u => PyVal.dict [("url", u)])
      else
        (templateSubst B v2).map (fun u => PyVal.dict [("url", u)])

/-- The repository object as far as its `url` attribute is concerned:
`RepositoryBase.__init__` stores the constructor argument unchanged in
`self._url` and the `url` property returns it. -/
structure RepositoryObj where
  url : PyVal
deriving DecidableEq

/-- `get_repository` of `repoup/repository/__init__.py`: dispatch on
the file extension (the source tree registers the rpm format; an
unknown extension surfaces `NotImplementedError` from
`import_component`), call `find_repository`, and pass its result —
as-is — as the repository url. -/
def get_repository (baseurl : Option String) (filename : String)
    (vars : List (String × String)) : Except RepoError RepositoryObj :=
  let ext := pyLstrip (fun c => c = '.') (pySplitext filename).2
  if ext = "rpm" then (find_repository baseurl filename vars).map (fun u => ⟨u⟩)
  else .error (.notImplemented ext)

/-- Worker of Python `str.split(sep)` for a non-empty separator, with
fuel (always called with more fuel than characters). -/
def pySplitGo (sep : List Char) : Nat → List Char → List Char → List (List Char)
  | 0, l, acc => [acc.reverse ++ l]
  | _ + 1, [], acc => [acc.reverse]
  | f + 1, c :: t, acc =>
    if sep.isPrefixOf (c :: t) then acc.reverse :: pySplitGo sep f ((c :: t).drop sep.length) []
    else pySplitGo sep f t (c :: acc)

/-- Python `s.split(sep)` for a non-empty separator. -/
def pySplit (s sep : String) : List String :=
  (pySplitGo sep.toList (s.toList.length + 1) s.toList []).map (fun l => String.mk l)

/-- `get_storage`'s first step, `url.split("://")` with tuple
unpacking: on a string it needs exactly one separator, on a dict it
raises `AttributeError` because dicts have no `split`. -/
def urlSchemePath (v : PyVal) : Except RepoError (String × String) :=
  match v with
  | .dict _ => .error (.attributeError "dict object has no attribute split")
  | .str s =>
    match pySplit s "://" with
    | [a, b] => .ok (a, b)
    | _ => .error (.valueError "unpack mismatch")

/-- Transaction-level path bookkeeping: the `modified` and `removed`
path sets exposed by an open repository transaction, and
`_changed_paths` (the CDN invalidation list initialised in
`RepositoryBase.__init__`). -/
structure TxState where
  modified : List String
  removed : List String
  changed : List String
deriving DecidableEq

/-- The empty bookkeeping state of a freshly opened transaction. -/
def emptyTx : TxState := ⟨[], [], []⟩

/-- Modelled from the spec: `RepositoryBase._mark_as_modified(paths,
invalidate=True)` is used by the rpm code but not defined in the
source tree; per the spec it adds the paths to `modified` and, when
`invalidate` is true, records them for CDN invalidation. -/
def mark_as_modified (tx : TxState) (paths : List String) (invalidate : Bool) : TxState :=
  ⟨tx.modified ++ paths, tx.removed, if invalidate then tx.changed ++ paths else tx.changed⟩

/-- Modelled from the spec: `RepositoryBase._mark_for_deletion(paths)`
is used by the rpm code but not defined in the source tree; per the
spec it adds the paths to both `removed` and the invalidation list. -/
def mark_for_deletion (tx : TxState) (paths : List String) : TxState :=
  ⟨tx.modified, tx.removed ++ paths, tx.changed ++ paths⟩

/-- The slice of a `createrepo_c` package record the embedded code
reads: `pkg.nvra()`, `pkg.nevra()` and `location_href`. -/
structure Pkg where
  nvra : String
  nevra : String
  location : String
deriving DecidableEq

/-- Python dict lookup on the insertion-ordered association list. -/
def dictGet (k : String) : List (String × Pkg) → Option Pkg
  | [] => none
  | (a, v) :: r => if a = k then some v else dictGet k r

/-- Python `k in d`. -/
def dictMem (k : String) (d : List (String × Pkg)) : Bool :=
  (dictGet k d).isSome

/-- Python `d.setdefault(k, v)`: insert only when the key is absent. -/
def setdefault (d : List (String × Pkg)) (k : String) (v : Pkg) : List (String × Pkg) :=
  if (dictGet k d).isSome then d else d ++ [(k, v)]

/-- Remove the entries of a key (Python `del d[k]` on a dict, which
holds the key at most once). -/
def dictDelAll (k : String) : List (String × Pkg) → List (String × Pkg)
  | [] => []
  | (a, v) :: r => if a = k then dictDelAll k r else (a, v) :: dictDelAll k r

/-- Python `del d[k]`: `KeyError` when the key is absent. -/
def pyDictDel (d : List (String × Pkg)) (k : String) : Except RepoError (List (String × Pkg)) :=
  if dictMem k d then .ok (dictDelAll k d) else .error (.keyError k)

/-- The `try: del ... except KeyError: continue` of `Repository.remove`. -/
def tryDel (d : List (String × Pkg)) (k : String) : List (String × Pkg) :=
  match pyDictDel d k with
  | .ok d2 => d2
  | .error _ => d

/-- The four in-memory indices `self._pkgs` of the RPM repository, in
their insertion order. -/
structure RpmMaps where
  primary : List (String × Pkg)
  filelists : List (String × Pkg)
  other : List (String × Pkg)
  updateinfo : List (String × Pkg)
deriving DecidableEq

/-- Names of the four indices, to quantify over them. -/
inductive RecordKind where
  | primary
  | filelists
  | other
  | updateinfo
deriving DecidableEq

/-- Select one of the four indices. -/
def getMap (m : RpmMaps) : RecordKind → List (String × Pkg)
  | .primary => m.primary
  | .filelists => m.filelists
  | .other => m.other
  | .updateinfo => m.updateinfo

/-- State of one open RPM repository transaction: the indices, the
`_outdated_files` set collected by `_load` from the previous repomd,
and the path bookkeeping. -/
structure RpmState where
  maps : RpmMaps
  outdated : List String
  tx : TxState
deriving DecidableEq

/-- Storage side effects of one `Repository.add` call. -/
structure AddFx where
  puts : List String
  srcRemoved : List String
deriving DecidableEq

/-- `Repository.add` of `repoup/repository/rpm.py`.  `pfx` is the
storage prefix (`self._storage.join`), `gpg` whether a signing key is
configured (`_sign_pkg` signs, and returns `True`, exactly then), and
`pkg` the record `cr.package_from_rpm` parses from the downloaded
file.  A filename already keyed in `primary` removes a stray source
copy outside the destination and raises `PackageAlreadyExists`; a
filename matching neither `nvra` nor `nevra` raises `InvalidPackage`;
otherwise the record (with `location_href` set to the bare filename)
is `setdefault`-inserted in every index, the file is uploaded when
signed or moved, and the source is removed when requested and distinct
from the destination. -/
def rpmAdd (pfx : String) (gpg : Bool) (st : RpmState) (path : String) (pkg : Pkg)
    (removeSource : Bool) : RpmState × AddFx × Except RepoError String :=
  let filename := pyBasename path
  let dst := pyJoin pfx filename
  let pkgName := (pySplitext filename).1
  if dictMem pkgName st.maps.primary then
    (st, ⟨[], if path ≠ dst then [path] else []⟩, .error (.packageAlreadyExists filename))
  else
    if pkgName = pkg.nvra ∨ pkgName = pkg.nevra then
      let p2 : Pkg := ⟨pkg.nvra, pkg.nevra, filename⟩
      let m := st.maps
      let m2 : RpmMaps := ⟨setdefault m.primary pkg.nvra p2, setdefault m.filelists pkg.nvra p2,
        setdefault m.other pkg.nvra p2, setdefault m.updateinfo pkg.nvra p2⟩
      (⟨m2, st.outdated, mark_as_modified st.tx [filename] false⟩,
       ⟨if gpg = true ∨ path ≠ dst then [dst] else [],
        if removeSource = true ∧ path ≠ dst then [path] else []⟩,
       .ok dst)
    else
      (st, ⟨[], []⟩, .error (.invalidPackage pkg.nvra))

/-- `Repository.remove`: delete the NVRA key (basename without
extension) from every index, swallowing `KeyError`, then mark the
basename for deletion. -/
def rpmRemove (st : RpmState) (filename : String) : RpmState :=
  let fn := pyBasename filename
  let nvra := (pySplitext fn).1
  ⟨⟨tryDel st.maps.primary nvra, tryDel st.maps.filelists nvra,
    tryDel st.maps.other nvra, tryDel st.maps.updateinfo nvra⟩,
   st.outdated, mark_for_deletion st.tx [fn]⟩

/-- `_PKG_METADATA` of `repoup/repository/rpm.py`, in source order. -/
def PKG_METADATA : List String := ["primary", "other", "filelists"]

/-- `_REPOMD`. -/
def REPOMD : String := "repodata/repomd.xml"

/-- The records fed to `_save_record` for a metadata type: the values
of the index of that type, in insertion order. -/
def recordValues (m : RpmMaps) (t : String) : List Pkg :=
  if t = "primary" then m.primary.map Prod.snd
  else if t = "other" then m.other.map Prod.snd
  else if t = "filelists" then m.filelists.map Prod.snd
  else []

/-- The final `location_href` paths `_save_record` produces for the
three metadata types, database file first then xml file, as returned
to `_save`.  `gen` abstracts the createrepo_c writers: it names the
two files of a record type from the records written into them (the
names carry the content hash). -/
def savePaths (gen : String → List Pkg → String × String) (m : RpmMaps) : List String :=
  PKG_METADATA.flatMap (fun t => [(gen t (recordValues m t)).1, (gen t (recordValues m t)).2])

/-- The churn loop of `_save`: for each produced path (iterating over
a frozen copy), a path already listed in the previous repomd is
removed from the pending metadata files and from the outdated set. -/
def churnGo : List String → List String → List String → List String × List String
  | [], cur, out => (cur, out)
  | p :: rest, cur, out =>
    if p ∈ out then churnGo rest (cur.erase p) (out.erase p)
    else churnGo rest cur out

/-- Publication side effects of `_save`. -/
structure SaveFx where
  puts : List String
  wroteRepomd : Bool
deriving DecidableEq

/-- `Repository._save`: regenerate the metadata files, drop from both
pending and outdated every path that already existed, and return
early when nothing remains; otherwise mark `repomd.xml` modified (with
invalidation), the new metadata files modified (without), the
remaining outdated files for deletion, write the new `repomd.xml`, and
upload the new files (plus the detached signature when signing). -/
def rpmSave (gpg : Bool) (gen : String → List Pkg → String × String) (st : RpmState) :
    RpmState × SaveFx :=
  let files := savePaths gen st.maps
  let res := churnGo files files st.outdated
  if res.1.isEmpty then (⟨st.maps, res.2, st.tx⟩, ⟨[], false⟩)
  else
    let tx1 := mark_as_modified st.tx [REPOMD] true
    let tx2 := mark_as_modified tx1 res.1 false
    let tx3 := mark_for_deletion tx2 res.2
    (⟨st.maps, res.2, tx3⟩,
     ⟨res.1 ++ [REPOMD] ++ (if gpg then [REPOMD ++ ".asc"] else []), true⟩)

/-- Storage side effects of the transaction scope exit. -/
structure ExitFx where
  puts : List String
  deleted : List String
  invalidated : Option (List String)
deriving DecidableEq

/-- The success path of `RepositoryBase.__aexit__` for an RPM
transaction: run `_save`, then invalidate the CDN cache over
`_changed_paths` exactly when that list is non-empty.  The issuing of
the pending deletions (the `removed` set) is modelled from the spec:
the methods scheduling them are not in the source tree. -/
def scopeExit (gpg : Bool) (gen : String → List Pkg → String × String) (st : RpmState) :
    RpmState × ExitFx :=
  let r := rpmSave gpg gen st
  (r.1, ⟨r.2.puts, r.1.tx.removed,
    if r.1.tx.changed.isEmpty then none else some r.1.tx.changed⟩)

/-- The statements of `RepositoryBase.__aexit__` in source order. -/
inductive ExitStep where
  | save
  | invalidate
  | clearKeys
  | release
deriving DecidableEq

/-- Run a statement sequence with Python exception semantics: a
raising statement is reached and then aborts the rest of the method. -/
def runSteps : List (ExitStep × Bool) → List ExitStep × Bool
  | [] => ([], false)
  | (s, raises) :: rest =>
    if raises then ([s], true)
    else ((s :: (runSteps rest).1), (runSteps rest).2)

/-- `RepositoryBase.__aexit__` as a statement sequence: `_save`, then
`invalidate_cache` when `_changed_paths` is non-empty, then
`_gpg_clear_key` when a key is configured and clearing was requested,
then `super().__aexit__` — the step that releases the storage driver,
the scratch directory and the exit stack. -/
def aexitSteps (saveRaises invRaises clearRaises : Bool) (changed : List String)
    (hasKey clear : Bool) : List ExitStep × Bool :=
  runSteps ((ExitStep.save, saveRaises) ::
    ((if changed.isEmpty then [] else [(ExitStep.invalidate, invRaises)]) ++
     (if hasKey && clear then [(ExitStep.clearKeys, clearRaises)] else []) ++
     [(ExitStep.release, false)]))

/-- Observable actions of the AWS Lambda `handler`. -/
inductive LambdaFx where
  | op (action : String) (bucket : String) (key : String)
  | logLine (msg : String)
deriving DecidableEq

/-- The success log line printed by `handler`. -/
def handlerLog (action key url : String) : String :=
  pyRstrip (fun c => c = 'e') (pyCapitalize action) ++ "ed package \"" ++ pyBasename key ++
    "\" to repository \"" ++ url ++ "\""

/-- One record of an S3 event. -/
structure S3Record where
  eventName : String
  bucket : String
  key : String
deriving DecidableEq

/-- `handler` of `repoup/entrypoint/aws_lambda.py`: read
`event["Records"][0]` (IndexError when empty), map `ObjectCreated:*`
to `add` and `ObjectRemoved:*` to `remove`, ignore anything else with
a log line; `runAction` abstracts `_async_handler` (it performs the
repository operation and returns the repository url printed in the
final log line). -/
def handler (runAction : String → String → String → String) (records : List S3Record) :
    Except RepoError (List LambdaFx) :=
  match records with
  | [] => .error .indexError
  | r :: _ =>
    if pyStartswith r.eventName "ObjectCreated:" then
      .ok [.op "add" r.bucket r.key,
           .logLine (handlerLog "add" r.key (runAction "add" r.bucket r.key))]
    else if pyStartswith r.eventName "ObjectRemoved:" then
      .ok [.op "remove" r.bucket r.key,
           .logLine (handlerLog "remove" r.key (runAction "remove" r.bucket r.key))]
    else
      .ok [.logLine ("Ignoring unsupported event: " ++ r.eventName)]

/-- Keys of an index are pairwise distinct. -/
abbrev nodupKeys (d : List (String × Pkg)) : Prop :=
  (d.map Prod.fst).Nodup

/-- All four indices have pairwise distinct keys. -/
abbrev WfMaps (m : RpmMaps) : Prop :=
  nodupKeys m.primary ∧ nodupKeys m.filelists ∧ nodupKeys m.other ∧ nodupKeys m.updateinfo

/-- Input of one `add` call in a sequence. -/
structure AddIn where
  path : String
  pkg : Pkg
  removeSource : Bool
deriving DecidableEq

/-- Fold a sequence of `add` calls over the transaction state. -/
def applyAdds (pfx : String) (gpg : Bool) : RpmState → List AddIn → RpmState
  | st, [] => st
  | st, a :: rest => applyAdds pfx gpg (rpmAdd pfx gpg st a.path a.pkg a.removeSource).1 rest

/-- Empty transaction state over an empty repository. -/
def stEmpty : RpmState := ⟨⟨[], [], [], []⟩, [], emptyTx⟩

/-- A concrete instance of the content-hash naming of the metadata
files, used by the concrete executions below. -/
def gen0 : String → List Pkg → String × String :=
  fun t _ => ("repodata/0-" ++ t ++ ".sqlite.bz2", "repodata/0-" ++ t ++ ".xml.gz")

/-- State after `remove` of one package on a fresh empty repository. -/
def stC1W : RpmState := rpmRemove stEmpty "a-1-1.el8.noarch.rpm"

/-- State whose previous repomd listed exactly the files `gen0`
regenerates plus one stale updateinfo record. -/
def stC6 : RpmState :=
  ⟨⟨[], [], [], []⟩,
   ["repodata/0-primary.sqlite.bz2", "repodata/0-primary.xml.gz",
    "repodata/0-other.sqlite.bz2", "repodata/0-other.xml.gz",
    "repodata/0-filelists.sqlite.bz2", "repodata/0-filelists.xml.gz",
    "repodata/old-updateinfo.xml.gz"],
   emptyTx⟩

/-- A parsed package record for the witnesses. -/
def pkgW : Pkg := ⟨"a-1-1.el8.noarch", "a-1-1.el8.noarch", ""⟩

/-- Another package record for the witnesses. -/
def pkgB : Pkg := ⟨"b-2-1.el8.noarch", "b-2-1.el8.noarch", ""⟩

/-- An `add` input for the witnesses. -/
def addInB : AddIn := ⟨"b-2-1.el8.noarch.rpm", pkgB, true⟩

/-- State with one package already indexed in `primary`. -/
def stW : RpmState := ⟨⟨[("a-1-1.el8.noarch", pkgW)], [], [], []⟩, [], emptyTx⟩

/-! ## Helper lemmas -/

theorem dictGet_append_some (d e : List (String × Pkg)) (k : String) (v : Pkg)
    (h : dictGet k d = some v) : dictGet k (d ++ e) = some v := by
  induction d with
  | nil => simp [dictGet] at h
  | cons a r ih =>
    obtain ⟨a1, a2⟩ := a
    by_cases hk : a1 = k
    · simpa [dictGet, hk] using h
    · rw [List.cons_append]
      simp only [dictGet, if_neg hk] at h ⊢
      exact ih h

theorem dictGet_none_keys (d : List (String × Pkg)) (k : String)
    (h : dictGet k d = none) : k ∉ d.map Prod.fst := by
  induction d with
  | nil => simp
  | cons a r ih =>
    obtain ⟨a1, a2⟩ := a
    by_cases hk : a1 = k
    · simp [dictGet, hk] at h
    · simp only [dictGet, if_neg hk] at h
      simp only [List.map_cons, List.mem_cons]
      rintro (h1 | h2)
      · exact hk h1.symm
      · exact ih h h2

theorem nodup_setdefault (d : List (String × Pkg)) (k : String) (v : Pkg)
    (h : nodupKeys d) : nodupKeys (setdefault d k v) := by
  unfold setdefault
  split
  · exact h
  · rename_i hget
    have hnone : dictGet k d = none := by
      cases hv : dictGet k d with
      | none => rfl
      | some w => rw [hv] at hget; simp at hget
    have hnm := dictGet_none_keys d k hnone
    unfold nodupKeys
    rw [List.map_append]
    have hdisj : (d.map Prod.fst).Disjoint ([(k, v)].map Prod.fst) := by
      intro x hx hx2
      simp only [List.map_cons, List.map_nil, List.mem_singleton] at hx2
      exact hnm (hx2 ▸ hx)
    exact List.Nodup.append h (by simp) hdisj

theorem dictGet_setdefault_some (d : List (String × Pkg)) (k k2 : String) (v p : Pkg)
    (h : dictGet k d = some v) : dictGet k (setdefault d k2 p) = some v := by
  unfold setdefault
  split
  · exact h
  · exact dictGet_append_some d [(k2, p)] k v h

theorem rpmAdd_state (pfx : String) (gpg : Bool) (st : RpmState) (path : String) (pkg : Pkg)
    (rs : Bool) :
    (rpmAdd pfx gpg st path pkg rs).1 = st ∨
    (rpmAdd pfx gpg st path pkg rs).1.maps =
      ⟨setdefault st.maps.primary pkg.nvra ⟨pkg.nvra, pkg.nevra, pyBasename path⟩,
       setdefault st.maps.filelists pkg.nvra ⟨pkg.nvra, pkg.nevra, pyBasename path⟩,
       setdefault st.maps.other pkg.nvra ⟨pkg.nvra, pkg.nevra, pyBasename path⟩,
       setdefault st.maps.updateinfo pkg.nvra ⟨pkg.nvra, pkg.nevra, pyBasename path⟩⟩ := by
  unfold rpmAdd
  dsimp only
  split
  · left; rfl
  · split
    · right; rfl
    · left; rfl

theorem rpmAdd_wf (pfx : String) (gpg : Bool) (st : RpmState) (path : String) (pkg : Pkg)
    (rs : Bool) (h : WfMaps st.maps) : WfMaps (rpmAdd pfx gpg st path pkg rs).1.maps := by
  rcases rpmAdd_state pfx gpg st path pkg rs with heq | heq
  · rw [heq]; exact h
  · rw [heq]
    exact ⟨nodup_setdefault _ _ _ h.1, nodup_setdefault _ _ _ h.2.1,
      nodup_setdefault _ _ _ h.2.2.1, nodup_setdefault _ _ _ h.2.2.2⟩

theorem applyAdds_wf (pfx : String) (gpg : Bool) (ops : List AddIn) (st : RpmState)
    (h : WfMaps st.maps) : WfMaps (applyAdds pfx gpg st ops).maps := by
  induction ops generalizing st with
  | nil => exact h
  | cons a rest ih =>
    exact ih _ (rpmAdd_wf pfx gpg st a.path a.pkg a.removeSource h)

theorem churn_absorbed (l : List String) :
    ∀ out : List String, l.Nodup → (∀ p ∈ l, p ∈ out) → (churnGo l l out).1 = [] := by
  induction l with
  | nil => intro out _ _; rfl
  | cons p rest ih =>
    intro out hnd hsub
    have hp : p ∈ out := hsub p (List.mem_cons_self p rest)
    have hrest : (p :: rest).erase p = rest := List.erase_cons_head p rest
    unfold churnGo
    rw [if_pos hp, hrest]
    have hnp : p ∉ rest := (List.nodup_cons.mp hnd).1
    refine ih (out.erase p) (List.nodup_cons.mp hnd).2 ?_
    intro q hq
    have hne : q ≠ p := fun h => hnp (h ▸ hq)
    exact (List.mem_erase_of_ne hne).mpr (hsub q (List.mem_cons_of_mem p hq))

theorem varGet_varSet_self (k v : String) (m : List (String × String)) :
    varGet k (varSet k v m) = some v := by
  induction m with
  | nil => simp [varGet, varSet]
  | cons a r ih =>
    obtain ⟨a1, a2⟩ := a
    by_cases hk : a1 = k
    · simp [varGet, varSet, hk]
    · simp [varGet, varSet, hk, ih]

theorem varGet_varSet_ne (k k2 v : String) (m : List (String × String)) (h : k ≠ k2) :
    varGet k (varSet k2 v m) = varGet k m := by
  induction m with
  | nil =>
    simp only [varSet, varGet]
    rw [if_neg (fun he : k2 = k => h he.symm)]
  | cons a r ih =>
    obtain ⟨a1, a2⟩ := a
    simp only [varSet]
    by_cases hk : a1 = k2
    · rw [if_pos hk]
      simp only [varGet]
      have hne : a1 ≠ k := fun he => h ((he ▸ hk : k = k2))
      rw [if_neg hne, if_neg hne]
    · rw [if_neg hk]
      simp only [varGet]
      by_cases hk1 : a1 = k
      · rw [if_pos hk1, if_pos hk1]
      · rw [if_neg hk1, if_neg hk1]
        exact ih

theorem rpmSave_removed_subset (gpg : Bool) (gen : String → List Pkg → String × String)
    (st : RpmState) (h : ∀ p ∈ st.tx.removed, p ∈ st.tx.changed) :
    ∀ p ∈ (rpmSave gpg gen st).1.tx.removed, p ∈ (rpmSave gpg gen st).1.tx.changed := by
  unfold rpmSave
  dsimp only
  split
  · exact h
  · intro p hp
    simp [mark_for_deletion, mark_as_modified, List.mem_append] at hp ⊢
    rcases hp with hp | hp
    · exact Or.inl (h p hp)
    · exact Or.inr (Or.inr hp)

theorem tryDel_absent (d : List (String × Pkg)) (k : String) (h : dictMem k d = false) :
    tryDel d k = d := by
  unfold tryDel pyDictDel
  rw [h]
  simp

/-! ## Claim theorems -/

/-- Claim C2: `_mark_as_modified(paths, invalidate)` adds the paths to
the `modified` set (recording them for CDN invalidation exactly when
`invalidate` is true, and leaving `removed` alone), and
`_mark_for_deletion(paths)` adds the paths to both the `removed` set
and the invalidation list. -/
theorem c2_mark_helpers (tx : TxState) (paths : List String) (inv : Bool) (p : String)
    (hp : p ∈ paths) :
    p ∈ (mark_as_modified tx paths inv).modified ∧
    (inv = true → p ∈ (mark_as_modified tx paths inv).changed) ∧
    (inv = false → (mark_as_modified tx paths inv).changed = tx.changed) ∧
    (mark_as_modified tx paths inv).removed = tx.removed ∧
    p ∈ (mark_for_deletion tx paths).removed ∧
    p ∈ (mark_for_deletion tx paths).changed := by
  unfold mark_as_modified mark_for_deletion
  cases inv <;> simp_all [List.mem_append]

/-- Witness for C2 at a concrete transaction state and path. -/
theorem c2_mark_helpers_witness :
    ("a" ∈ (mark_as_modified emptyTx ["a"] true).modified) ∧
    ("a" ∈ (mark_as_modified emptyTx ["a"] true).changed) ∧
    ("b" ∈ (mark_for_deletion emptyTx ["b"]).removed) ∧
    ("b" ∈ (mark_for_deletion emptyTx ["b"]).changed) := by
  have h1 := c2_mark_helpers emptyTx ["a"] true "a" (by decide)
  have h2 := c2_mark_helpers emptyTx ["b"] true "b" (by decide)
  exact ⟨h1.1, h1.2.1 rfl, h2.2.2.2.2.1, h2.2.2.2.2.2⟩

/-- Claim C5: an `add` whose filename (without extension) is already a
key of the `primary` index raises `PackageAlreadyExists`, leaves the
state — in particular every in-memory index — unchanged, and removes
the source object exactly when the source path differs from the
repository destination path. -/
theorem c5_duplicate_add (pfx : String) (gpg : Bool) (st : RpmState) (path : String)
    (pkg : Pkg) (rs : Bool)
    (hmem : dictMem ((pySplitext (pyBasename path)).1) st.maps.primary = true) :
    rpmAdd pfx gpg st path pkg rs =
      (st, ⟨[], if path ≠ pyJoin pfx (pyBasename path) then [path] else []⟩,
       .error (.packageAlreadyExists (pyBasename path))) := by
  unfold rpmAdd
  simp only [hmem, if_true]

/-- Witness for C5: a duplicate `add` from a source outside the
destination. -/
theorem c5_duplicate_add_witness :
    (dictMem ((pySplitext (pyBasename "tests/data/a-1-1.el8.noarch.rpm")).1)
      stW.maps.primary = true) ∧
    rpmAdd "8/noarch" false stW "tests/data/a-1-1.el8.noarch.rpm" pkgW true =
      (stW, ⟨[], ["tests/data/a-1-1.el8.noarch.rpm"]⟩,
       .error (.packageAlreadyExists "a-1-1.el8.noarch.rpm")) := by
  have h := c5_duplicate_add "8/noarch" false stW "tests/data/a-1-1.el8.noarch.rpm" pkgW true
    (by decide)
  exact ⟨by decide, h.trans (by decide)⟩

/-- Claim C7: along any sequence of `add` calls every index keeps its
keys pairwise distinct (each NVRA maps to at most one record), and an
`add` never replaces an existing record of any index: whatever a key
mapped to before the call, it still maps to after it. -/
theorem c7_index_unique_no_overwrite (pfx : String) (gpg : Bool) (st : RpmState)
    (h : WfMaps st.maps) :
    (∀ ops : List AddIn, WfMaps (applyAdds pfx gpg st ops).maps) ∧
    (∀ (path : String) (pkg : Pkg) (rs : Bool) (kind : RecordKind) (k : String) (v : Pkg),
      dictGet k (getMap st.maps kind) = some v →
      dictGet k (getMap (rpmAdd pfx gpg st path pkg rs).1.maps kind) = some v) := by
  constructor
  · intro ops
    exact applyAdds_wf pfx gpg ops st h
  · intro path pkg rs kind k v hv
    rcases rpmAdd_state pfx gpg st path pkg rs with heq | heq
    · rw [heq]
      exact hv
    · rw [heq]
      cases kind <;> simp only [getMap] at hv ⊢ <;>
        exact dictGet_setdefault_some _ _ _ _ _ hv

/-- Witness for C7: one add on a seeded state, and a duplicate add
that keeps the previously indexed record. -/
theorem c7_index_unique_no_overwrite_witness :
    WfMaps (applyAdds "8/noarch" false stW [addInB]).maps ∧
    dictGet "a-1-1.el8.noarch"
      (getMap (rpmAdd "8/noarch" false stW "tests/data/a-1-1.el8.noarch.rpm" pkgW true).1.maps
        RecordKind.primary) = some pkgW := by
  have h := c7_index_unique_no_overwrite "8/noarch" false stW (by decide)
  exact ⟨h.1 [addInB],
    h.2 "tests/data/a-1-1.el8.noarch.rpm" pkgW true RecordKind.primary "a-1-1.el8.noarch" pkgW
      (by decide)⟩

/-- Claim C10: `remove` is total — each missing NVRA key is a
`KeyError` that the method swallows — and always marks the filename's
basename for deletion, identically whether or not the package was
indexed; when no index holds the key, the indices are left unchanged. -/
theorem c10_remove_never_raises (st : RpmState) (f : String) :
    (rpmRemove st f).tx = mark_for_deletion st.tx [pyBasename f] ∧
    (rpmRemove st f).outdated = st.outdated ∧
    (rpmRemove st f).maps =
      ⟨tryDel st.maps.primary ((pySplitext (pyBasename f)).1),
       tryDel st.maps.filelists ((pySplitext (pyBasename f)).1),
       tryDel st.maps.other ((pySplitext (pyBasename f)).1),
       tryDel st.maps.updateinfo ((pySplitext (pyBasename f)).1)⟩ ∧
    ((∀ kind : RecordKind, dictMem ((pySplitext (pyBasename f)).1) (getMap st.maps kind) = false) →
      (rpmRemove st f).maps = st.maps) ∧
    (∀ (d : List (String × Pkg)) (k : String), dictMem k d = false →
      pyDictDel d k = .error (.keyError k)) := by
  refine ⟨rfl, rfl, rfl, ?_, ?_⟩
  · intro habs
    have hP := tryDel_absent st.maps.primary _ (habs RecordKind.primary)
    have hF := tryDel_absent st.maps.filelists _ (habs RecordKind.filelists)
    have hO := tryDel_absent st.maps.other _ (habs RecordKind.other)
    have hU := tryDel_absent st.maps.updateinfo _ (habs RecordKind.updateinfo)
    show (⟨⟨_, _, _, _⟩, _, _⟩ : RpmState).maps = st.maps
    rw [hP, hF, hO, hU]
  · intro d k hk
    unfold pyDictDel
    rw [hk]
    simp

/-- Witness for C10: removing a package absent from a fresh state. -/
theorem c10_remove_never_raises_witness :
    (rpmRemove stEmpty "d/x-1-1.el8.noarch.rpm").maps = stEmpty.maps ∧
    (rpmRemove stEmpty "d/x-1-1.el8.noarch.rpm").tx =
      mark_for_deletion emptyTx ["x-1-1.el8.noarch.rpm"] ∧
    pyDictDel [] "x-1-1.el8.noarch" = .error (.keyError "x-1-1.el8.noarch") := by
  have h := c10_remove_never_raises stEmpty "d/x-1-1.el8.noarch.rpm"
  refine ⟨h.2.2.2.1 ?_, h.1.trans (by decide), h.2.2.2.2 [] "x-1-1.el8.noarch" (by decide)⟩
  intro kind
  cases kind <;> decide

/-- Claim C6: when every regenerated metadata file carries a
content-hash path already listed in the previous repomd (their paths
are pairwise distinct by construction, each embedding its record type
and hash), `_save` publishes nothing — no upload, no new repomd, no
path marked — and a transaction without mutations, whose bookkeeping
is still empty at save time, exits without uploading, deleting or
invalidating anything. -/
theorem c6_unchanged_metadata_publishes_nothing (gpg : Bool)
    (gen : String → List Pkg → String × String) (st : RpmState)
    (hnd : (savePaths gen st.maps).Nodup)
    (hsub : ∀ p ∈ savePaths gen st.maps, p ∈ st.outdated) :
    (rpmSave gpg gen st).2 = ⟨[], false⟩ ∧ (rpmSave gpg gen st).1.tx = st.tx ∧
    (st.tx = emptyTx → (scopeExit gpg gen st).2 = ⟨[], [], none⟩) := by
  have hchurn : (churnGo (savePaths gen st.maps) (savePaths gen st.maps) st.outdated).1 = [] :=
    churn_absorbed (savePaths gen st.maps) st.outdated hnd hsub
  have hsave : rpmSave gpg gen st =
      (⟨st.maps, (churnGo (savePaths gen st.maps) (savePaths gen st.maps) st.outdated).2, st.tx⟩,
       ⟨[], false⟩) := by
    unfold rpmSave
    dsimp only
    rw [hchurn]
    simp
  refine ⟨by rw [hsave], by rw [hsave], ?_⟩
  intro htx
  unfold scopeExit
  dsimp only
  rw [hsave]
  simp [htx, emptyTx]

/-- Witness for C6: a repository whose previous repomd listed exactly
the regenerated files plus one stale record. -/
theorem c6_unchanged_metadata_witness :
    (rpmSave false gen0 stC6).2 = ⟨[], false⟩ ∧
    (scopeExit false gen0 stC6).2 = ⟨[], [], none⟩ := by
  have h := c6_unchanged_metadata_publishes_nothing false gen0 stC6 (by decide) (by decide)
  exact ⟨h.1, h.2.2 (by decide)⟩

/-- Claim C1 (amended): on scope exit, after `_save` runs, every path
of the `removed` set is deleted from the object store, and the CDN
invalidation is invoked exactly over the recorded invalidation list
(`_changed_paths` — the paths marked as modified with invalidation
plus the removed paths) whenever that list is non-empty, and not at
all when it is empty; every deleted path is in the batch, but modified
paths marked without invalidation are not. -/
theorem c1_exit_deletes_and_invalidates_changed (gpg : Bool)
    (gen : String → List Pkg → String × String) (st : RpmState)
    (h : ∀ p ∈ st.tx.removed, p ∈ st.tx.changed) :
    (scopeExit gpg gen st).2.deleted = (scopeExit gpg gen st).1.tx.removed ∧
    (scopeExit gpg gen st).2.invalidated =
      (if (scopeExit gpg gen st).1.tx.changed.isEmpty then none
       else some ((scopeExit gpg gen st).1.tx.changed)) ∧
    (∀ p ∈ (scopeExit gpg gen st).2.deleted,
      ∃ batch, (scopeExit gpg gen st).2.invalidated = some batch ∧ p ∈ batch) := by
  have hsub := rpmSave_removed_subset gpg gen st h
  refine ⟨rfl, rfl, ?_⟩
  intro p hp
  have hp2 : p ∈ (rpmSave gpg gen st).1.tx.removed := hp
  have hc : p ∈ (rpmSave gpg gen st).1.tx.changed := hsub p hp2
  cases hcc : (rpmSave gpg gen st).1.tx.changed with
  | nil => rw [hcc] at hc; cases hc
  | cons x xs =>
    refine ⟨x :: xs, ?_, hcc ▸ hc⟩
    show (if (rpmSave gpg gen st).1.tx.changed.isEmpty then none
      else some ((rpmSave gpg gen st).1.tx.changed)) = some (x :: xs)
    rw [hcc]
    rfl

/-- Witness for C1 at the state reached by removing one package from a
fresh empty repository. -/
theorem c1_exit_witness :
    (scopeExit false gen0 stC1W).2.deleted = ["a-1-1.el8.noarch.rpm"] ∧
    (scopeExit false gen0 stC1W).2.invalidated =
      some ["a-1-1.el8.noarch.rpm", "repodata/repomd.xml"] := by
  have h := c1_exit_deletes_and_invalidates_changed false gen0 stC1W (by decide)
  exact ⟨h.1.trans (by decide), h.2.1.trans (by decide)⟩

/-- Counterexample to C1 as stated: on a fresh empty repository the
exit marks `repomd.xml` and the six new metadata files as modified,
so `modified ∪ removed` is non-empty, yet the invalidation batch is
exactly `[repodata/repomd.xml]` — the hash-named metadata files were
marked without invalidation and are missing from the batch, which is
therefore not the union. -/
theorem c1_union_counterexample :
    ("repodata/0-primary.xml.gz" ∈
      ((scopeExit false gen0 stEmpty).1.tx.modified ++ (scopeExit false gen0 stEmpty).1.tx.removed)) ∧
    (scopeExit false gen0 stEmpty).2.invalidated = some [REPOMD] ∧
    ("repodata/0-primary.xml.gz" ∉ [REPOMD]) := by decide

/-- Claim C3 (evaluation at the failing input): `get_repository`
passes the dict returned by `find_repository` straight to the
repository constructor, so the resulting `url` is the dict
`[("url", resolved)]` and not the resolved url string, and
`get_storage`'s `url.split` on it fails, while it would have
succeeded on the string the repository's own tests expect. -/
theorem c3_get_repository_url_is_dict :
    get_repository (some "s3://bucket/$releasever/$basearch")
      "tests/data/a-1-1.el8.noarch.rpm" [] =
      .ok ⟨PyVal.dict [("url", "s3://bucket/8/noarch")]⟩ ∧
    (⟨PyVal.dict [("url", "s3://bucket/8/noarch")]⟩ : RepositoryObj).url ≠
      PyVal.str "s3://bucket/8/noarch" ∧
    urlSchemePath (PyVal.dict [("url", "s3://bucket/8/noarch")]) =
      .error (.attributeError "dict object has no attribute split") ∧
    urlSchemePath (PyVal.str "s3://bucket/8/noarch") = .ok ("s3", "bucket/8/noarch") := by
  refine ⟨by decide, by decide, by decide, by decide⟩

/-- Claim C4 (evaluation at the failing input): when `_save` raises
inside `__aexit__`, the method stops at the save statement — the GPG
key clearing and the releasing `super().__aexit__` are never reached —
whereas on the success path both run. -/
theorem c4_save_failure_skips_release :
    aexitSteps true false false [REPOMD] true true = ([ExitStep.save], true) ∧
    ExitStep.release ∉ (aexitSteps true false false [REPOMD] true true).1 ∧
    ExitStep.clearKeys ∉ (aexitSteps true false false [REPOMD] true true).1 ∧
    aexitSteps false false false [REPOMD] true true =
      ([ExitStep.save, ExitStep.invalidate, ExitStep.clearKeys, ExitStep.release], false) := by
  decide

/-- Claim C8: for a filename whose basename the NEVRA pattern matches
with a release containing a dot, and a base url mentioning
`$releasever`, `find_repository` returns the template substitution of
the base url under the caller variables extended with `arch` and
`basearch` bound to the parsed architecture and `releasever` bound to
the dist tag (the text after the first dot of the release) stripped of
its leading ASCII letters. -/
theorem c8_find_repository_dist_tag (B filename : String) (vars : List (String × String))
    (g : NevraG) (dist : List Char)
    (hm : nevraMatch (pyBasename filename) = some g)
    (hc : pyContains B "$releasever" = true)
    (hd : afterFirst '.' g.release.toList = some dist) :
    find_repository (some B) filename vars =
      (templateSubst B (varSet "releasever" (pyLstrip isAsciiLetter (String.mk dist))
        (varSet "basearch" g.arch (varSet "arch" g.arch vars)))).map
        (fun u => PyVal.dict [("url", u)]) ∧
    varGet "releasever" (varSet "releasever" (pyLstrip isAsciiLetter (String.mk dist))
      (varSet "basearch" g.arch (varSet "arch" g.arch vars))) =
      some (pyLstrip isAsciiLetter (String.mk dist)) ∧
    varGet "basearch" (varSet "releasever" (pyLstrip isAsciiLetter (String.mk dist))
      (varSet "basearch" g.arch (varSet "arch" g.arch vars))) = some g.arch ∧
    varGet "arch" (varSet "releasever" (pyLstrip isAsciiLetter (String.mk dist))
      (varSet "basearch" g.arch (varSet "arch" g.arch vars))) = some g.arch := by
  refine ⟨?_, ?_, ?_, ?_⟩
  · unfold find_repository
    simp only [hm, hc, hd, if_true]
  · exact varGet_varSet_self _ _ _
  · rw [varGet_varSet_ne _ _ _ _ (by decide)]
    exact varGet_varSet_self _ _ _
  · rw [varGet_varSet_ne _ _ _ _ (by decide), varGet_varSet_ne _ _ _ _ (by decide)]
    exact varGet_varSet_self _ _ _

/-- Witness for C8: `el8` yields releasever `8` and the resolved url
substitutes all three variables. -/
theorem c8_find_repository_dist_tag_witness :
    nevraMatch (pyBasename "tests/data/a-1-1.el8.noarch.rpm") =
      some ⟨"a", none, "1", "1.el8", "noarch"⟩ ∧
    pyLstrip isAsciiLetter "el8" = "8" ∧
    find_repository (some "s3://bucket/$releasever/$basearch")
      "tests/data/a-1-1.el8.noarch.rpm" [] =
      .ok (PyVal.dict [("url", "s3://bucket/8/noarch")]) := by
  have h := c8_find_repository_dist_tag "s3://bucket/$releasever/$basearch"
    "tests/data/a-1-1.el8.noarch.rpm" [] ⟨"a", none, "1", "1.el8", "noarch"⟩
    ("el8".toList) (by decide) (by decide) (by decide)
  exact ⟨by decide, by decide, h.1.trans (by decide)⟩

/-- Claim C9: the Lambda handler reads only the first element of
`event["Records"]` — appending further records changes neither the
performed repository operation nor the log output. -/
theorem c9_handler_first_record_only (runAction : String → String → String → String)
    (r : S3Record) (rest : List S3Record) :
    handler runAction (r :: rest) = handler runAction [r] := rfl
